import Mathlib

/-!
Shallow embedding of `xml_to_json_converter.py`, an XML query-map to JSON
converter, together with theorems checking its specification.

Strings are modelled as `List Char` (`Str`); Python's Unicode whitespace and
case mapping are modelled on their ASCII fragment, which is the fragment the
program's inputs exercise.  Python dictionaries are modelled as association
lists with Python's insertion-order/update-in-place semantics.  The XML tree
produced by `xml.etree.ElementTree` is modelled abstractly (`XMLElem`), and
`ET.parse` is modelled as a `ParseOutcome` (success with a root element, or a
raised `ET.ParseError`, or any other exception) supplied by an abstract file
system.
-/

abbrev Str := List Char

/-- ASCII whitespace, as matched by Python's `str.strip()` and `\s` in `re`
(space, tab, newline, carriage return, vertical tab, form feed). -/
def isPySpace (c : Char) : Bool :=
  c = ' ' || c = '\t' || c = '\n' || c = '\r' || c = '\x0b' || c = '\x0c'

/-- Python `str.strip()`: drop leading and trailing whitespace. -/
def pyStrip (s : Str) : Str :=
  ((s.dropWhile isPySpace).reverse.dropWhile isPySpace).reverse

/-- State machine for `collapseWS`: the flag records whether the previous
character was whitespace (in which case further whitespace of the same run is
dropped rather than emitted). -/
def collapseAux : Bool → Str → Str
  | _, [] => []
  | prev, c :: cs =>
    if isPySpace c then
      if prev then collapseAux true cs else ' ' :: collapseAux true cs
    else c :: collapseAux false cs

/-- Python `re.sub(r'\s+', ' ', s)`: collapse each maximal whitespace run
into a single space. -/
def collapseWS (s : Str) : Str := collapseAux false s

/-- `startsWithL pat s` holds when `pat` is an initial segment of `s`. -/
def startsWithL : Str → Str → Bool
  | [], _ => true
  | _ :: _, [] => false
  | p :: ps, c :: cs => p = c && startsWithL ps cs

/-- Split `s` at the first occurrence of `pat`, returning the part before the
occurrence and the part after it, or `none` when `pat` does not occur. -/
def findSplit (pat : Str) : Str → Option (Str × Str)
  | [] => if pat = [] then some ([], []) else none
  | c :: cs =>
    if startsWithL pat (c :: cs) then some ([], (c :: cs).drop pat.length)
    else
      match findSplit pat cs with
      | some (pre, post) => some (c :: pre, post)
      | none => none

/-- Python `pat in s` substring test. -/
def containsSub (pat s : Str) : Bool := (findSplit pat s).isSome

def cdataOpenPat : Str := "<![CDATA[".toList

def cdataClosePat : Str := "]]>".toList

def cdataWord : Str := "CDATA".toList

/-- State machine for `subCdataOpen`: `n` counts characters of a matched
marker still to delete, and the flag records that the whitespace run following
a deleted marker is being skipped (the greedy `\s*` of the pattern). -/
def subOpenAux : Nat → Bool → Str → Str
  | _, _, [] => []
  | n + 1, b, _ :: cs => subOpenAux n b cs
  | 0, b, c :: cs =>
    if b && isPySpace c then subOpenAux 0 true cs
    else if startsWithL cdataOpenPat (c :: cs) then subOpenAux 8 true cs
    else c :: subOpenAux 0 false cs

/-- Python `re.sub(r'<!\[CDATA\[\s*', '', s)`: delete every occurrence of the
CDATA opening marker together with the whitespace run following it, scanning
left to right. -/
def subCdataOpen (s : Str) : Str := subOpenAux 0 false s

/-- The reversal of `cdataClosePat`, used to delete `\s*\]\]>` by scanning the
reversed string (occurrences of `]]>` cannot overlap, and each maximal
whitespace run attaches to the unique `]]>` following it, so deleting
`>]]` + whitespace on the reversal removes exactly the spans the left-to-right
scan of `re.sub` removes). -/
def revClosePat : Str := ">]]".toList

/-- State machine for `subCdataClose`, running over the reversed string:
`n` counts characters of a matched (reversed) marker still to delete, and the
flag records that the whitespace run following it is being skipped. -/
def subCloseAux : Nat → Bool → Str → Str
  | _, _, [] => []
  | n + 1, b, _ :: cs => subCloseAux n b cs
  | 0, b, c :: cs =>
    if b && isPySpace c then subCloseAux 0 true cs
    else if startsWithL revClosePat (c :: cs) then subCloseAux 2 true cs
    else c :: subCloseAux 0 false cs

/-- Python `re.sub(r'\s*\]\]>', '', s)`: delete every occurrence of the CDATA
closing marker together with the whitespace run preceding it. -/
def subCdataClose (s : Str) : Str := (subCloseAux 0 false s.reverse).reverse

/-- `clean_multiline_text` (source lines 15-32): strip, collapse whitespace
runs to single spaces, delete literal CDATA open/close markers with their
adjacent whitespace, strip again.  Defined in the source but never called by
it. -/
def clean_multiline_text (text : Str) : Str :=
  if text = [] then []
  else pyStrip (subCdataClose (subCdataOpen (collapseWS (pyStrip text))))

/-- `extract_query_id` (source lines 34-41): lower-cased first three
characters of a query id, `"unknown"` when shorter.  Defined in the source but
never called by it. -/
def extract_query_id (query_id : Str) : Str :=
  if 3 ≤ query_id.length then (query_id.take 3).map Char.toLower
  else "unknown".toList

/-- An XML element as exposed by `xml.etree.ElementTree`: a tag, an attribute
dictionary, the optional text directly inside the element (`.text`, `none`
when absent), and the list of direct child elements in document order. -/
inductive XMLElem where
  | mk (tag : Str) (attrib : List (Str × Str)) (text : Option Str)
      (children : List XMLElem)

def XMLElem.tag : XMLElem → Str
  | .mk t _ _ _ => t

def XMLElem.attrib : XMLElem → List (Str × Str)
  | .mk _ a _ _ => a

def XMLElem.text : XMLElem → Option Str
  | .mk _ _ x _ => x

def XMLElem.children : XMLElem → List XMLElem
  | .mk _ _ _ cs => cs

/-- `elem.get(key, default)`: attribute lookup with a default. -/
def attrGetD (e : XMLElem) (k d : Str) : Str :=
  match e.attrib.find? (fun p => p.1 == k) with
  | some p => p.2
  | none => d

/-- `elem.findall(tag)`: the direct children carrying exactly this tag, in
document order. -/
def findallTag (e : XMLElem) (t : Str) : List XMLElem :=
  e.children.filter (fun c => c.tag == t)

/-- The output record built for one `query` element (source lines 92-98):
the `fetchSize`/`isNamed` attributes are read by the source but deliberately
left out of the record. -/
structure QueryInfo where
  id : Str
  desc : Str
  file_name : Str
  query_map_desc : Str
  query : Str
deriving DecidableEq, Repr

/-- A value of the top-level output dictionary: on success the nested
per-module dictionary of query records, on failure the error-message
string. -/
inductive TopVal where
  | entries (m : List (Str × QueryInfo))
  | errMsg (s : Str)
deriving DecidableEq, Repr

/-- The dictionary returned by the parser (`result` in the source). -/
abbrev TopResult := List (Str × TopVal)

/-- Python `d[k] = v` on an insertion-ordered dictionary: an existing key
keeps its position and gets the new value, a fresh key is appended. -/
def dictInsert {α : Type} : List (Str × α) → Str → α → List (Str × α)
  | [], k, v => [(k, v)]
  | (k', v') :: rest, k, v =>
    if k' = k then (k, v) :: rest else (k', v') :: dictInsert rest k v

/-- First-match association-list lookup (Python `d[k]` / `k in d`). -/
def dictLookup {α : Type} : List (Str × α) → Str → Option α
  | [], _ => none
  | (k', v) :: rest, k => if k' = k then some v else dictLookup rest k

/-- `result[module_code][query_id] = query_info` (source line 104): update the
nested dictionary sitting at key `mc` (that key is always present when the
source executes this statement). -/
def dictSetNested : TopResult → Str → Str → QueryInfo → TopResult
  | [], _, _, _ => []
  | (k, v) :: rest, mc, qid, info =>
    if k = mc then
      (k, match v with
          | .entries m => TopVal.entries (dictInsert m qid info)
          | w => w) :: rest
    else (k, v) :: dictSetNested rest mc qid info

/-- The child filter of source line 75:
`'CDATA' in child.tag or (child.text and 'CDATA' in child.text)` (a `None` or
empty text is falsy, so only a non-empty text is substring-tested). -/
def childHasCdata (c : XMLElem) : Bool :=
  containsSub cdataWord c.tag ||
    (match c.text with
     | some t => !t.isEmpty && containsSub cdataWord t
     | none => false)

/-- `re.search(r'<!\[CDATA\[(.*?)\]\]>', t, re.DOTALL)` (source line 78): the
leftmost, non-greedy match takes the text between the first `<![CDATA[` and
the first `]]>` after it; if the first `<![CDATA[` has no `]]>` after it, no
later one has either, so the search fails. -/
def cdataInner (t : Str) : Option Str :=
  match findSplit cdataOpenPat t with
  | none => none
  | some (_, rest) =>
    match findSplit cdataClosePat rest with
    | none => none
    | some (inner, _) => some inner

/-- The scan of source lines 73-81: `cdata_content` as left by the child loop
(empty when no child passes the filter; otherwise the first matching child's
text, with the CDATA wrapper unwrapped when the regex matches it). -/
def childContent (q : XMLElem) : Str :=
  match q.children.find? childHasCdata with
  | some child =>
    let t := child.text.getD []
    match cdataInner t with
    | some inner => inner
    | none => t
  | none => []

/-- Source lines 83-85: `if not cdata_content and query.text:` — the direct
text of the `query` element replaces an *empty* child-derived content (also
when a child had matched but contributed nothing). -/
def bodyOf (q : XMLElem) : Str :=
  let cdata_content := childContent q
  if cdata_content.isEmpty && !(q.text.getD []).isEmpty then q.text.getD []
  else cdata_content

/-- Source line 97: the trimmed body re-wrapped as
`"<![CDATA[\n" + body + "\n         ]]>"` (nine spaces before the closing
marker). -/
def wrapQuery (cleaned : Str) : Str :=
  "<![CDATA[\n".toList ++ cleaned ++ "\n         ]]>".toList

/-- Source lines 66-98: the `QueryInfo` record built for one `query`
element. -/
def mkQueryInfo (file_name query_map_desc : Str) (q : XMLElem) : QueryInfo :=
  { id := attrGetD q "id".toList []
    desc := attrGetD q "desc".toList []
    file_name := file_name
    query_map_desc := query_map_desc
    query := wrapQuery (pyStrip (bodyOf q)) }

/-- The body of the `for query in root.findall('query')` loop (source lines
66-104). -/
def processQuery (file_name query_map_desc module_code : Str)
    (r : TopResult) (q : XMLElem) : TopResult :=
  dictSetNested r module_code (attrGetD q "id".toList [])
    (mkQueryInfo file_name query_map_desc q)

/-- Source line 59:
`module_code = file_name[:3].lower() if len(file_name) >= 3 else "unknown"`
(`.lower()` modelled on its ASCII fragment, where it maps characters
pointwise). -/
def moduleCodeOf (file_name : Str) : Str :=
  if 3 ≤ file_name.length then (file_name.take 3).map Char.toLower
  else "unknown".toList

/-- `os.path.basename` on POSIX: the part of the path after its last `/`. -/
def basenameL (p : Str) : Str :=
  (p.reverse.takeWhile (fun c => c ≠ '/')).reverse

/-- The success path of `parse_glue_sql_file` (source lines 47-106), given the
parsed root element. -/
def parse_glue_sql_core (file_path : Str) (root : XMLElem) : TopResult :=
  let file_name := basenameL file_path
  let query_map_desc := attrGetD root "desc".toList []
  let module_code := moduleCodeOf file_name
  (findallTag root "query".toList).foldl
    (processQuery file_name query_map_desc module_code)
    [(module_code, TopVal.entries [])]

/-- What `ET.parse(file_path)` did: returned a root element, raised
`ET.ParseError`, or raised some other exception. -/
inductive ParseOutcome where
  | ok (root : XMLElem)
  | parseError (msg : Str)
  | otherError (msg : Str)

/-- `parse_glue_sql_file` (source lines 43-113): the `try` body on success,
and the two `except` handlers turning a raised exception into an
`{"error": ...}` dictionary (source lines 108-113).  In this model the only
fallible step inside the `try` is `ET.parse` itself — attribute access and
traversal on a parsed tree are total. -/
def parse_glue_sql_file (file_path : Str) (oc : ParseOutcome) : TopResult :=
  match oc with
  | .ok root => parse_glue_sql_core file_path root
  | .parseError e => [("error".toList, .errMsg ("XML 파싱 오류: ".toList ++ e))]
  | .otherError e => [("error".toList, .errMsg ("처리 오류: ".toList ++ e))]

/-- The part of the file system the converter consults: which paths exist,
and what parsing the file at a path yields. -/
structure FileSystem where
  pathExists : Str → Bool
  parseResult : Str → ParseOutcome

/-- Split a file name at its last dot into a stem and a dotted extension,
`none` when it has no dot. -/
def extSplitBase (b : Str) : Option (Str × Str) :=
  let r := b.reverse
  let pre := r.takeWhile (fun c => c ≠ '.')
  if pre.length = r.length then none
  else some ((r.drop (pre.length + 1)).reverse, '.' :: pre.reverse)

/-- The part of a POSIX path up to and including its last `/` (empty when the
path has no `/`). -/
def dirPartL (p : Str) : Str :=
  (p.reverse.dropWhile (fun c => c ≠ '/')).reverse

/-- `os.path.splitext` on POSIX: split off the extension at the last dot of
the final path component, except when that component consists of dots only up
to that dot (then there is no extension). -/
def splitextL (p : Str) : Str × Str :=
  match extSplitBase (basenameL p) with
  | none => (p, [])
  | some (stem, ext) =>
    if stem.any (fun c => c ≠ '.') then (dirPartL p ++ stem, ext)
    else (p, [])

/-- `convert_xml_to_json` (source lines 115-142): `false` with no write when
the input does not exist; otherwise parse, derive the output path when none
was given (a falsy — absent or empty — second argument), and write the JSON.
The returned pair is the boolean result and the performed write (output path
and written dictionary).  Write failures are outside this model. -/
def convert_xml_to_json (fs : FileSystem) (input_file : Str)
    (output_file : Option Str) : Bool × Option (Str × TopResult) :=
  if !fs.pathExists input_file then (false, none)
  else
    let result := parse_glue_sql_file input_file (fs.parseResult input_file)
    let out :=
      match output_file with
      | some o => if o.isEmpty then (splitextL input_file).1 ++ ".json".toList else o
      | none => (splitextL input_file).1 ++ ".json".toList
    (true, some (out, result))

/-- The tallying loop of directory mode (source lines 169-177): count
successful and failed conversions over the collected files. -/
def batchCounts (fs : FileSystem) (files : List Str) : Nat × Nat :=
  files.foldl
    (fun acc f =>
      if (convert_xml_to_json fs f none).1 then (acc.1 + 1, acc.2)
      else (acc.1, acc.2 + 1))
    (0, 0)

/-- Directory-mode exit status (source lines 182-183): 1 when any file
failed, else 0. -/
def dirModeExit (counts : Nat × Nat) : Nat :=
  if 0 < counts.2 then 1 else 0

/-- Single-file-mode exit status (source lines 185-191). -/
def singleModeExit (fs : FileSystem) (input : Str) (output : Option Str) : Nat :=
  if (convert_xml_to_json fs input output).1 then 0 else 1

/-- Whether `ET.parse` raised (either exception kind). -/
def ParseOutcome.isFailure : ParseOutcome → Bool
  | .ok _ => false
  | .parseError _ => true
  | .otherError _ => true

/-- Sequential dictionary updates: `for p in ps: d[p[0]] = p[1]`. -/
def dictInsertAll {α : Type} (m : List (Str × α)) (ps : List (Str × α)) :
    List (Str × α) :=
  ps.foldl (fun acc p => dictInsert acc p.1 p.2) m

/-- The inner dictionary of a successful result (the value under the single
module key). -/
def topEntries : TopResult → List (Str × QueryInfo)
  | [(_, TopVal.entries m)] => m
  | _ => []

/-- The `(query_id, record)` pairs the parser inserts, one per `query` child,
in document order. -/
def queryRecs (path : Str) (root : XMLElem) : List (Str × QueryInfo) :=
  (findallTag root "query".toList).map fun q =>
    (attrGetD q "id".toList [],
     mkQueryInfo (basenameL path) (attrGetD root "desc".toList []) q)

/-- Convenience constructor for concrete XML elements. -/
def xmlE (tag : String) (attrib : List (String × String)) (text : Option String)
    (children : List XMLElem) : XMLElem :=
  .mk tag.toList (attrib.map fun p => (p.1.toList, p.2.toList))
    (text.map String.toList) children

/-- A root element with no `query` children. -/
def emptyRoot : XMLElem := xmlE "queryMap" [] none []

/-- A `query` element with a CDATA-tagged child carrying no text, and with
direct text of its own. -/
def qC2 : XMLElem := xmlE "query" [("id", "q1")] (some "hello")
  [xmlE "CDATA" [] none []]

/-- A root whose single `query` element carries attribute values with extra
whitespace. -/
def rootC3 : XMLElem := xmlE "queryMap" [("desc", "  r \n d  ")] none
  [xmlE "query" [("id", "q1"), ("desc", "  a\n\tb  ")] (some "SELECT 1") []]

/-- A root with two `query` children carrying distinct ids. -/
def rootTwo : XMLElem := xmlE "queryMap" [] none
  [xmlE "query" [("id", "q1")] (some "A") [],
   xmlE "query" [("id", "q2")] (some "B") []]

/-- A root with two `query` children sharing one id. -/
def rootDup : XMLElem := xmlE "queryMap" [] none
  [xmlE "query" [("id", "q1")] (some "first") [],
   xmlE "query" [("id", "q1")] (some "second") []]

/-- A file system where every path exists and exactly `c.xml` is malformed
XML; the other paths parse to an empty query map. -/
def fsBatchC1 : FileSystem :=
  { pathExists := fun _ => true
    parseResult := fun p =>
      if p == "c.xml".toList then .parseError "mismatched tag".toList
      else .ok emptyRoot }

/-- The three files of the directory-mode scenario. -/
def filesC1 : List Str := ["a.xml".toList, "b.xml".toList, "c.xml".toList]

/-- A file system where no path exists. -/
def fsNoFile : FileSystem :=
  { pathExists := fun _ => false
    parseResult := fun _ => .otherError [] }

/-- A file system where every path exists and parses to an empty query
map. -/
def fsAllOk : FileSystem :=
  { pathExists := fun _ => true
    parseResult := fun _ => .ok emptyRoot }

/-! Helper lemmas. -/

theorem head?_eq_of_leading {l₁ l₂ : Str} (h : l₁ <+: l₂) (hne : l₁ ≠ []) :
    l₂.head? = l₁.head? := by
  obtain ⟨t, rfl⟩ := h
  cases l₁ with
  | nil => exact absurd rfl hne
  | cons a as => rfl

theorem pyStrip_head_ok (s : Str) :
    ((pyStrip s).head?.all fun c => !isPySpace c) = true := by
  cases hcase : (pyStrip s).head? with
  | none => rfl
  | some c =>
    suffices h : isPySpace c = false by simp [Option.all, h]
    have hne : pyStrip s ≠ [] := by
      intro h0
      rw [h0] at hcase
      exact Option.noConfusion hcase
    obtain ⟨t, ht⟩ : (s.dropWhile isPySpace).reverse.dropWhile isPySpace <:+
        (s.dropWhile isPySpace).reverse := List.dropWhile_suffix _
    have hpre : pyStrip s <+: s.dropWhile isPySpace := by
      refine ⟨t.reverse, ?_⟩
      simp only [pyStrip]
      rw [← List.reverse_append, ht, List.reverse_reverse]
    have hA : (s.dropWhile isPySpace).head? = some c := by
      rw [head?_eq_of_leading hpre hne]
      exact hcase
    have h2 := List.head?_dropWhile_not isPySpace s
    rw [hA] at h2
    exact h2

theorem pyStrip_getLast_ok (s : Str) :
    ((pyStrip s).getLast?.all fun c => !isPySpace c) = true := by
  have hgl : (pyStrip s).getLast? =
      ((s.dropWhile isPySpace).reverse.dropWhile isPySpace).head? := by
    simp only [pyStrip]
    exact List.getLast?_reverse _
  rw [hgl]
  have h2 := List.head?_dropWhile_not isPySpace (s.dropWhile isPySpace).reverse
  cases hcase : ((s.dropWhile isPySpace).reverse.dropWhile isPySpace).head? with
  | none => rfl
  | some c =>
    rw [hcase] at h2
    simp [Option.all, h2]

theorem pyStrip_decomp (s : Str) :
    ∃ t₁ t₂ : Str, t₁.all isPySpace = true ∧ t₂.all isPySpace = true ∧
      s = t₁ ++ pyStrip s ++ t₂ := by
  refine ⟨s.takeWhile isPySpace,
    ((s.dropWhile isPySpace).reverse.takeWhile isPySpace).reverse, ?_, ?_, ?_⟩
  · exact List.all_eq_true.mpr fun x hx => List.mem_takeWhile_imp hx
  · exact List.all_eq_true.mpr fun x hx =>
      List.mem_takeWhile_imp (List.mem_reverse.mp hx)
  · unfold pyStrip
    conv_lhs => rw [← List.takeWhile_append_dropWhile isPySpace s]
    rw [List.append_assoc]
    congr 1
    conv_lhs => rw [← List.reverse_reverse (s.dropWhile isPySpace),
      ← List.takeWhile_append_dropWhile isPySpace (s.dropWhile isPySpace).reverse]
    rw [List.reverse_append]

theorem dictInsert_of_not_mem {α : Type} (m : List (Str × α)) (k : Str) (v : α)
    (h : k ∉ m.map Prod.fst) : dictInsert m k v = m ++ [(k, v)] := by
  induction m with
  | nil => rfl
  | cons p rest ih =>
    simp only [List.map_cons, List.mem_cons, not_or] at h
    simp only [dictInsert]
    rw [if_neg (fun he => h.1 he.symm), ih h.2]
    rfl

theorem dictLookup_dictInsert_self {α : Type} (m : List (Str × α)) (k : Str)
    (v : α) : dictLookup (dictInsert m k v) k = some v := by
  induction m with
  | nil => simp [dictInsert, dictLookup]
  | cons p rest ih =>
    by_cases hk : p.1 = k
    · simp [dictInsert, hk, dictLookup]
    · simp [dictInsert, hk, dictLookup, ih]

theorem dictLookup_dictInsert_ne {α : Type} (m : List (Str × α)) (k k' : Str)
    (v : α) (h : k' ≠ k) :
    dictLookup (dictInsert m k v) k' = dictLookup m k' := by
  have hne : ¬(k = k') := fun he => h he.symm
  induction m with
  | nil => simp [dictInsert, dictLookup, hne]
  | cons p rest ih =>
    obtain ⟨pk, pv⟩ := p
    by_cases hk : pk = k
    · subst hk
      simp [dictInsert, dictLookup, hne]
    · simp [dictInsert, hk, dictLookup, ih]

theorem dictInsertAll_of_nodup {α : Type} (ps : List (Str × α)) :
    ∀ m : List (Str × α), (m.map Prod.fst ++ ps.map Prod.fst).Nodup →
      dictInsertAll m ps = m ++ ps := by
  induction ps with
  | nil => intro m _; simp [dictInsertAll]
  | cons p ps ih =>
    intro m h
    have hnm : p.1 ∉ m.map Prod.fst := by
      rw [List.nodup_append] at h
      intro hmem
      exact h.2.2 hmem (List.mem_cons_self _ _)
    have hstep : dictInsert m p.1 p.2 = m ++ [p] := by
      rw [dictInsert_of_not_mem m p.1 p.2 hnm]
    have hnodup : ((m ++ [p]).map Prod.fst ++ ps.map Prod.fst).Nodup := by
      simpa [List.append_assoc] using h
    calc dictInsertAll m (p :: ps)
        = dictInsertAll (dictInsert m p.1 p.2) ps := by
          simp [dictInsertAll, List.foldl_cons]
      _ = dictInsertAll (m ++ [p]) ps := by rw [hstep]
      _ = (m ++ [p]) ++ ps := ih (m ++ [p]) hnodup
      _ = m ++ p :: ps := by simp

theorem dictLookup_dictInsertAll {α : Type} (ps : List (Str × α)) :
    ∀ (m : List (Str × α)) (k : Str),
      dictLookup (dictInsertAll m ps) k =
        match ps.reverse.find? (fun p => p.1 == k) with
        | some p => some p.2
        | none => dictLookup m k := by
  induction ps with
  | nil => intro m k; simp [dictInsertAll]
  | cons p ps ih =>
    intro m k
    have hfold : dictInsertAll m (p :: ps) =
        dictInsertAll (dictInsert m p.1 p.2) ps := by
      simp [dictInsertAll, List.foldl_cons]
    rw [hfold, ih, List.reverse_cons, List.find?_append]
    cases hf : ps.reverse.find? (fun p => p.1 == k) with
    | some p' => simp [Option.or]
    | none =>
      simp only [Option.or]
      by_cases hk : p.1 = k
      · subst hk
        simp [List.find?, dictLookup_dictInsert_self]
      · have hpk : (p.1 == k) = false := beq_eq_false_iff_ne.mpr hk
        simp [List.find?, hpk,
          dictLookup_dictInsert_ne m p.1 k p.2 (fun he => hk he.symm)]

theorem foldl_processQuery_singleton (fn qmd mc : Str) (qs : List XMLElem) :
    ∀ m : List (Str × QueryInfo),
      qs.foldl (processQuery fn qmd mc) [(mc, TopVal.entries m)] =
        [(mc, TopVal.entries (qs.foldl
          (fun acc q => dictInsert acc (attrGetD q "id".toList [])
            (mkQueryInfo fn qmd q)) m))] := by
  induction qs with
  | nil => intro m; rfl
  | cons q qs ih =>
    intro m
    have hstep : processQuery fn qmd mc [(mc, TopVal.entries m)] q =
        [(mc, TopVal.entries (dictInsert m (attrGetD q "id".toList [])
          (mkQueryInfo fn qmd q)))] := by
      simp [processQuery, dictSetNested]
    simp only [List.foldl_cons, hstep]
    exact ih _

theorem parse_core_eq (path : Str) (root : XMLElem) :
    parse_glue_sql_core path root =
      [(moduleCodeOf (basenameL path),
        TopVal.entries (dictInsertAll [] (queryRecs path root)))] := by
  unfold parse_glue_sql_core
  rw [foldl_processQuery_singleton]
  unfold dictInsertAll queryRecs
  rw [List.foldl_map]

theorem dirPart_append_basename (p : Str) : dirPartL p ++ basenameL p = p := by
  unfold dirPartL basenameL
  rw [← List.reverse_append, List.takeWhile_append_dropWhile, List.reverse_reverse]

theorem takeWhile_drop_decomp (q : Char → Bool) (r : Str)
    (hlen : ¬(r.takeWhile q).length = r.length) :
    ∃ c0, q c0 = false ∧
      r = r.takeWhile q ++ c0 :: r.drop ((r.takeWhile q).length + 1) := by
  have hsplit : r.takeWhile q ++ r.dropWhile q = r :=
    List.takeWhile_append_dropWhile q r
  have hdrop : r.drop (r.takeWhile q).length = r.dropWhile q := by
    have h0 := List.drop_left (r.takeWhile q) (r.dropWhile q)
    rw [hsplit] at h0
    exact h0
  have hne2 : r.dropWhile q ≠ [] := by
    intro h0
    apply hlen
    have h1 : r.takeWhile q = r := by
      conv_rhs => rw [← hsplit, h0, List.append_nil]
    exact congrArg List.length h1
  obtain ⟨c0, tl, hct⟩ := List.exists_cons_of_ne_nil hne2
  refine ⟨c0, ?_, ?_⟩
  · have h2 := List.head?_dropWhile_not q r
    rw [hct] at h2
    exact h2
  · have htl : tl = r.drop ((r.takeWhile q).length + 1) := by
      have h4 := List.tail_drop r (r.takeWhile q).length
      rw [hdrop, hct] at h4
      simpa using h4
    rw [← htl, ← hct, hsplit]

theorem extSplitBase_append {b stem ext : Str}
    (h : extSplitBase b = some (stem, ext)) : stem ++ ext = b := by
  simp only [extSplitBase] at h
  by_cases hlen :
      (b.reverse.takeWhile (fun c => decide ¬c = '.')).length = b.reverse.length
  · rw [if_pos hlen] at h
    exact Option.noConfusion h
  · rw [if_neg hlen] at h
    simp only [Option.some.injEq, Prod.mk.injEq] at h
    obtain ⟨hstem, hext⟩ := h
    subst hstem
    subst hext
    obtain ⟨c0, hc0, hdec⟩ :=
      takeWhile_drop_decomp (fun c => decide ¬c = '.') b.reverse hlen
    have hc0' : c0 = '.' := by
      have h3 := of_decide_eq_false hc0
      exact not_not.mp h3
    subst hc0'
    conv_rhs => rw [← List.reverse_reverse b]
    conv_rhs => rw [hdec]
    rw [List.reverse_append, List.reverse_cons, List.append_assoc]
    rfl

theorem splitextL_append (p : Str) : (splitextL p).1 ++ (splitextL p).2 = p := by
  unfold splitextL
  cases hsplit : extSplitBase (basenameL p) with
  | none => simp
  | some se =>
    obtain ⟨stem, ext⟩ := se
    show ((if (stem.any fun c => decide ¬c = '.') = true
            then (dirPartL p ++ stem, ext) else (p, [])).1 ++
          (if (stem.any fun c => decide ¬c = '.') = true
            then (dirPartL p ++ stem, ext) else (p, [])).2 = p)
    by_cases hany : (stem.any fun c => decide ¬c = '.') = true
    · simp only [if_pos hany]
      rw [List.append_assoc, extSplitBase_append hsplit,
        dirPart_append_basename]
    · simp only [if_neg hany]
      exact List.append_nil p

theorem moduleCodeOf_ne_error (f : Str) : moduleCodeOf f ≠ "error".toList := by
  unfold moduleCodeOf
  by_cases h3 : 3 ≤ f.length
  · rw [if_pos h3]
    intro he
    have hlen := congrArg List.length he
    simp only [List.length_map, List.length_take] at hlen
    rw [Nat.min_eq_left h3] at hlen
    exact absurd hlen (by decide)
  · rw [if_neg h3]
    decide

/-!
Claim theorems.
-/

/-- C9: `clean_multiline_text` trims leading/trailing whitespace, collapses
every whitespace run (newlines and tabs included) to a single space, and
strips literal CDATA markers tolerating surrounding whitespace; in particular
`"  a\n\tb  "` maps to `"a b"` and `"<![CDATA[ x ]]>"` maps to `"x"`; the
result never starts or ends with whitespace. -/
theorem C9_clean_multiline_text_normalizes :
    clean_multiline_text "  a\n\tb  ".toList = "a b".toList ∧
    clean_multiline_text "<![CDATA[ x ]]>".toList = "x".toList ∧
    clean_multiline_text "x <![CDATA[ \n y \n ]]> z".toList = "x y z".toList ∧
    ∀ s : Str,
      ((clean_multiline_text s).head?.all fun c => !isPySpace c) = true ∧
      ((clean_multiline_text s).getLast?.all fun c => !isPySpace c) = true := by
  refine ⟨by decide, by decide, by decide, fun s => ?_⟩
  unfold clean_multiline_text
  by_cases h : s = []
  · rw [if_pos h]
    exact ⟨rfl, rfl⟩
  · rw [if_neg h]
    exact ⟨pyStrip_head_ok _, pyStrip_getLast_ok _⟩

/-- C4: the output `query` field is exactly the trimmed body wrapped as
`"<![CDATA[\n" + body + "\n         ]]>"` with nine spaces before the closing
marker; a body `"SELECT 1"` yields exactly `"<![CDATA[\nSELECT 1\n         ]]>"`,
and a `query` element with neither a CDATA-bearing child nor direct text gets
an empty body that is still wrapped. -/
theorem C4_query_field_wrapped :
    (∀ (fn qmd : Str) (q : XMLElem),
      (mkQueryInfo fn qmd q).query =
        "<![CDATA[\n".toList ++ pyStrip (bodyOf q) ++ "\n         ]]>".toList) ∧
    (mkQueryInfo "f.xml".toList [] (xmlE "query" [("id", "q1")]
      (some "  SELECT 1  ") [])).query = "<![CDATA[\nSELECT 1\n         ]]>".toList ∧
    bodyOf (xmlE "query" [("id", "q0")] none []) = [] ∧
    (mkQueryInfo "f.xml".toList [] (xmlE "query" [("id", "q0")] none [])).query =
      "<![CDATA[\n\n         ]]>".toList :=
  ⟨fun _ _ _ => rfl, by decide, by decide, by decide⟩

/-- C5: the single top-level output key is the module code derived from the
base file name of the input path — lower-cased first three characters, or the
literal `"unknown"` when the base name is shorter than three characters. -/
theorem C5_module_code_from_file_name :
    (∀ (path : Str) (root : XMLElem),
      (parse_glue_sql_core path root).map Prod.fst =
        [moduleCodeOf (basenameL path)]) ∧
    (∀ f : Str, moduleCodeOf f =
      if 3 ≤ f.length then (f.take 3).map Char.toLower else "unknown".toList) ∧
    moduleCodeOf [] = "unknown".toList ∧
    moduleCodeOf "ab".toList = "unknown".toList ∧
    moduleCodeOf "B47".toList = "b47".toList ∧
    moduleCodeOf "B47SA508.glue_sql".toList = "b47".toList ∧
    basenameL "dir/sub/B47SA508.glue_sql".toList = "B47SA508.glue_sql".toList := by
  refine ⟨fun path root => ?_, fun f => rfl, by decide, by decide, by decide,
    by decide, by decide⟩
  rw [parse_core_eq]
  rfl

/-- C7: the parser never raises — a raised `ET.ParseError` or any other
exception is caught and turned into the single-key mapping
`{"error": message}` (with the handler-specific message prefix), and a
successful parse yields the ordinary single-module-key result. -/
theorem C7_parser_never_raises :
    ∀ (path e : Str) (root : XMLElem),
      parse_glue_sql_file path (.parseError e) =
        [("error".toList, TopVal.errMsg ("XML 파싱 오류: ".toList ++ e))] ∧
      parse_glue_sql_file path (.otherError e) =
        [("error".toList, TopVal.errMsg ("처리 오류: ".toList ++ e))] ∧
      ∃ m, parse_glue_sql_file path (.ok root) =
        [(moduleCodeOf (basenameL path), TopVal.entries m)] := by
  intro path e root
  exact ⟨rfl, rfl, dictInsertAll [] (queryRecs path root), parse_core_eq path root⟩

/-- C10: the parser's result always has exactly one top-level key; that key is
`"error"` exactly when parsing failed and the derived module code exactly when
it succeeded, and a module code (three characters, or `"unknown"`) can never
equal `"error"`, so the `"error"` key unambiguously signals failure. -/
theorem C10_single_key_invariant :
    ∀ (path : Str) (oc : ParseOutcome),
      (parse_glue_sql_file path oc).length = 1 ∧
      ((parse_glue_sql_file path oc).map Prod.fst = ["error".toList] ↔
        oc.isFailure = true) ∧
      ((parse_glue_sql_file path oc).map Prod.fst =
        [moduleCodeOf (basenameL path)] ↔ oc.isFailure = false) ∧
      moduleCodeOf (basenameL path) ≠ "error".toList := by
  intro path oc
  refine ⟨?_, ?_, ?_, moduleCodeOf_ne_error _⟩
  · cases oc with
    | ok root => rw [show parse_glue_sql_file path (.ok root) =
        parse_glue_sql_core path root from rfl, parse_core_eq]; rfl
    | parseError e => rfl
    | otherError e => rfl
  · cases oc with
    | ok root =>
      rw [show parse_glue_sql_file path (.ok root) =
        parse_glue_sql_core path root from rfl, parse_core_eq]
      constructor
      · intro h
        simp only [List.map_cons, List.map_nil, List.cons.injEq] at h
        exact absurd h.1 (moduleCodeOf_ne_error _)
      · intro h
        exact absurd h (by simp [ParseOutcome.isFailure])
    | parseError e => simp [parse_glue_sql_file, ParseOutcome.isFailure]
    | otherError e => simp [parse_glue_sql_file, ParseOutcome.isFailure]
  · cases oc with
    | ok root =>
      rw [show parse_glue_sql_file path (.ok root) =
        parse_glue_sql_core path root from rfl, parse_core_eq]
      simp [ParseOutcome.isFailure]
    | parseError e =>
      constructor
      · intro h
        simp only [parse_glue_sql_file, List.map_cons, List.map_nil,
          List.cons.injEq] at h
        exact absurd h.1.symm (moduleCodeOf_ne_error _)
      · intro h
        exact absurd h (by simp [ParseOutcome.isFailure])
    | otherError e =>
      constructor
      · intro h
        simp only [parse_glue_sql_file, List.map_cons, List.map_nil,
          List.cons.injEq] at h
        exact absurd h.1.symm (moduleCodeOf_ne_error _)
      · intro h
        exact absurd h (by simp [ParseOutcome.isFailure])

/-- C6: with pairwise-distinct query ids the single module key maps to exactly
the N records in document order; zero `query` children give `{module_code: {}}`;
and on duplicate ids a lookup returns the record of the latest query in
document order bearing that id (last-wins). -/
theorem C6_entries_document_order_last_wins :
    ∀ (path : Str) (root : XMLElem),
      (queryRecs path root).length = (findallTag root "query".toList).length ∧
      (((queryRecs path root).map Prod.fst).Nodup →
        parse_glue_sql_core path root =
          [(moduleCodeOf (basenameL path), TopVal.entries (queryRecs path root))]) ∧
      (findallTag root "query".toList = [] →
        parse_glue_sql_core path root =
          [(moduleCodeOf (basenameL path), TopVal.entries [])]) ∧
      (∀ k : Str,
        dictLookup (topEntries (parse_glue_sql_core path root)) k =
          match (queryRecs path root).reverse.find? (fun p => p.1 == k) with
          | some p => some p.2
          | none => none) := by
  intro path root
  refine ⟨by simp [queryRecs], ?_, ?_, ?_⟩
  · intro hnodup
    rw [parse_core_eq, dictInsertAll_of_nodup _ [] (by simpa using hnodup)]
    rfl
  · intro hnil
    rw [parse_core_eq]
    unfold queryRecs
    rw [hnil]
    rfl
  · intro k
    rw [parse_core_eq]
    show dictLookup (dictInsertAll [] (queryRecs path root)) k = _
    rw [dictLookup_dictInsertAll]
    cases (queryRecs path root).reverse.find? (fun p => p.1 == k) with
    | some p => rfl
    | none => rfl

/-- Witness for C6: a two-query root with distinct ids keeps both records in
document order; an empty root yields an empty module mapping; with two queries
sharing id `q1` the lookup returns the second (document-order later) record. -/
theorem C6_witness :
    parse_glue_sql_core "M01.xml".toList rootTwo =
      [(moduleCodeOf (basenameL "M01.xml".toList),
        TopVal.entries (queryRecs "M01.xml".toList rootTwo))] ∧
    parse_glue_sql_core "M01.xml".toList emptyRoot =
      [(moduleCodeOf (basenameL "M01.xml".toList), TopVal.entries [])] ∧
    dictLookup (topEntries (parse_glue_sql_core "M01.xml".toList rootDup))
        "q1".toList =
      some (mkQueryInfo "M01.xml".toList []
        (xmlE "query" [("id", "q1")] (some "second") [])) := by
  refine ⟨(C6_entries_document_order_last_wins "M01.xml".toList rootTwo).2.1
      (by decide),
    (C6_entries_document_order_last_wins "M01.xml".toList emptyRoot).2.2.1 rfl,
    ?_⟩
  rw [(C6_entries_document_order_last_wins "M01.xml".toList rootDup).2.2.2
    "q1".toList]
  decide

/-- C8: when the input path does not exist `convert_xml_to_json` returns
`false` without writing any output; when it exists and no output path is
given, the output path is the input path with its extension replaced by
`.json` (the stem-plus-extension decomposition recombines to the input, so
base name and directory are preserved). -/
theorem C8_convert_missing_input_and_default_output :
    ∀ (fs : FileSystem) (input : Str) (output : Option Str),
      (fs.pathExists input = false →
        convert_xml_to_json fs input output = (false, none)) ∧
      (fs.pathExists input = true →
        convert_xml_to_json fs input none =
          (true, some ((splitextL input).1 ++ ".json".toList,
            parse_glue_sql_file input (fs.parseResult input)))) ∧
      (splitextL input).1 ++ (splitextL input).2 = input := by
  intro fs input output
  refine ⟨?_, ?_, splitextL_append input⟩
  · intro h
    unfold convert_xml_to_json
    rw [h]
    rfl
  · intro h
    unfold convert_xml_to_json
    rw [h]
    rfl

/-- Witness for C8: on a file system without files the conversion of
`a.xml` fails with no write; on one where every path parses, converting
`dir/a.xml` with no output argument writes `dir/a.json`. -/
theorem C8_witness :
    convert_xml_to_json fsNoFile "a.xml".toList none = (false, none) ∧
    convert_xml_to_json fsAllOk "dir/a.xml".toList none =
      (true, some ((splitextL "dir/a.xml".toList).1 ++ ".json".toList,
        parse_glue_sql_file "dir/a.xml".toList
          (fsAllOk.parseResult "dir/a.xml".toList))) ∧
    (splitextL "dir/a.xml".toList).1 ++ ".json".toList = "dir/a.json".toList := by
  refine ⟨(C8_convert_missing_input_and_default_output fsNoFile
      "a.xml".toList none).1 rfl,
    (C8_convert_missing_input_and_default_output fsAllOk
      "dir/a.xml".toList none).2.1 rfl, by decide⟩

/-- C1 counterexample: on a file system where `c.xml` is malformed XML, the
converter writes `{"error": ...}` to `c.json` yet returns `true`; the
single-file exit status is 0; and a directory batch over three files, one
malformed, tallies 3 successes and 0 failures with overall exit status 0 —
refuting the claim that the malformed file is reported as a failure
(false return, failure tally, non-zero exit). -/
theorem C1_counterexample :
    (convert_xml_to_json fsBatchC1 "c.xml".toList none).1 = true ∧
    (convert_xml_to_json fsBatchC1 "c.xml".toList none).2 =
      some ("c.json".toList,
        [("error".toList, TopVal.errMsg "XML 파싱 오류: mismatched tag".toList)]) ∧
    singleModeExit fsBatchC1 "c.xml".toList none = 0 ∧
    batchCounts fsBatchC1 filesC1 = (3, 0) ∧
    dirModeExit (batchCounts fsBatchC1 filesC1) = 0 := by
  refine ⟨by decide, by decide, by decide, by decide, by decide⟩

/-- C1 amended: a malformed input still produces an output JSON whose
top-level mapping contains the key `"error"`, but the conversion is reported
as a success: `convert_xml_to_json` returns `true`, single-file mode exits 0,
and in directory mode the file is tallied as a success (3 matching files with
one malformed yield 3 successes, 0 failures, and overall exit 0). -/
theorem C1_amended_malformed_reported_success :
    ∀ (fs : FileSystem) (path e : Str),
      fs.pathExists path = true → fs.parseResult path = .parseError e →
        (convert_xml_to_json fs path none =
          (true, some ((splitextL path).1 ++ ".json".toList,
            [("error".toList,
              TopVal.errMsg ("XML 파싱 오류: ".toList ++ e))])) ∧
         singleModeExit fs path none = 0) := by
  intro fs path e hex hparse
  have hc : convert_xml_to_json fs path none =
      (true, some ((splitextL path).1 ++ ".json".toList,
        parse_glue_sql_file path (fs.parseResult path))) := by
    unfold convert_xml_to_json
    rw [hex]
    rfl
  rw [hparse] at hc
  refine ⟨hc, ?_⟩
  unfold singleModeExit
  rw [hc]
  rfl

/-- Witness for C1's amended theorem: the malformed `c.xml` of the concrete
batch file system. -/
theorem C1_amended_witness :
    convert_xml_to_json fsBatchC1 "c.xml".toList none =
      (true, some ((splitextL "c.xml".toList).1 ++ ".json".toList,
        [("error".toList,
          TopVal.errMsg ("XML 파싱 오류: ".toList ++ "mismatched tag".toList))])) ∧
    singleModeExit fsBatchC1 "c.xml".toList none = 0 :=
  C1_amended_malformed_reported_success fsBatchC1 "c.xml".toList
    "mismatched tag".toList rfl rfl

/-- C2 counterexample: in `qC2` a child passes the CDATA filter (its tag
contains "CDATA") but contributes empty text, and the element's own direct
text `"hello"` becomes the body anyway — refuting that the direct text is used
only when no matching child was found (the claim would make the body the
matched child's text, the empty string). -/
theorem C2_counterexample :
    (qC2.children.find? childHasCdata).isSome = true ∧
    childContent qC2 = [] ∧
    bodyOf qC2 = "hello".toList ∧
    "hello".toList ≠ ([] : Str) := by
  refine ⟨by decide, by decide, by decide, by decide⟩

/-- C2 amended: the parser scans the children in order and stops at the first
one whose tag or (non-empty) text contains "CDATA", unwrapping a
`<![CDATA[...]]>` wrapper in its text when present and otherwise taking the
text verbatim; the element's own direct text is used as the body whenever the
child-derived content is empty — in particular when no such child was found,
but also when a matching child contributed empty text. -/
theorem C2_amended_body_selection :
    ∀ q : XMLElem,
      (∀ c, q.children.find? childHasCdata = some c →
        (∀ inner, cdataInner (c.text.getD []) = some inner →
          childContent q = inner) ∧
        (cdataInner (c.text.getD []) = none →
          childContent q = c.text.getD [])) ∧
      (q.children.find? childHasCdata = none → childContent q = []) ∧
      (((childContent q).isEmpty && !(q.text.getD []).isEmpty) = true →
        bodyOf q = q.text.getD []) ∧
      (((childContent q).isEmpty && !(q.text.getD []).isEmpty) = false →
        bodyOf q = childContent q) := by
  intro q
  refine ⟨?_, ?_, ?_, ?_⟩
  · intro c hc
    constructor
    · intro inner hinner
      unfold childContent
      rw [hc]
      show (match cdataInner (c.text.getD []) with
        | some inner => inner
        | none => c.text.getD []) = inner
      rw [hinner]
    · intro hnone
      unfold childContent
      rw [hc]
      show (match cdataInner (c.text.getD []) with
        | some inner => inner
        | none => c.text.getD []) = c.text.getD []
      rw [hnone]
  · intro hc
    unfold childContent
    rw [hc]
  · intro hcond
    show (if ((childContent q).isEmpty && !(q.text.getD []).isEmpty) = true
      then q.text.getD [] else childContent q) = q.text.getD []
    rw [if_pos hcond]
  · intro hcond
    show (if ((childContent q).isEmpty && !(q.text.getD []).isEmpty) = true
      then q.text.getD [] else childContent q) = childContent q
    have hne : ¬(((childContent q).isEmpty && !(q.text.getD []).isEmpty) = true) := by
      rw [hcond]
      exact Bool.false_ne_true
    rw [if_neg hne]

/-- Witness for C2's amended theorem: for `qC2` the matched child has no
CDATA wrapper and empty text, so the child-derived content is empty, and the
element's direct text `"hello"` becomes the body. -/
theorem C2_amended_witness :
    childContent qC2 = (xmlE "CDATA" [] none []).text.getD [] ∧
    bodyOf qC2 = qC2.text.getD [] := by
  refine ⟨((C2_amended_body_selection qC2).1 (xmlE "CDATA" [] none [])
      rfl).2 rfl, (C2_amended_body_selection qC2).2.2.1 (by decide)⟩

/-- C3 counterexample: in the output for `rootC3` the record's `desc` and the
root-level `query_map_desc` are the raw attribute values, with their
whitespace intact, not the normalizer's output (`clean_multiline_text` on the
same text would give `"a b"`) — refuting that the descriptive fields are
produced by the Text Normalizer. -/
theorem C3_counterexample :
    topEntries (parse_glue_sql_core "B47.xml".toList rootC3) =
      [("q1".toList,
        { id := "q1".toList
          desc := "  a\n\tb  ".toList
          file_name := "B47.xml".toList
          query_map_desc := "  r \n d  ".toList
          query := "<![CDATA[\nSELECT 1\n         ]]>".toList })] ∧
    clean_multiline_text "  a\n\tb  ".toList = "a b".toList ∧
    "  a\n\tb  ".toList ≠ "a b".toList ∧
    clean_multiline_text "  r \n d  ".toList = "r d".toList ∧
    "  r \n d  ".toList ≠ "r d".toList := by
  refine ⟨by decide, by decide, by decide, by decide, by decide⟩

/-- C3 amended: the descriptive fields of the output record are the raw
attribute values taken verbatim (the Text Normalizer `clean_multiline_text`
is defined in the source but applied to nothing), while the SQL body is
trimmed only — the emitted body is a contiguous slice of the raw body whose
flanks are pure whitespace, so interior line breaks survive. -/
theorem C3_amended_desc_raw_body_trimmed :
    ∀ (fn qmd : Str) (q : XMLElem),
      (mkQueryInfo fn qmd q).desc = attrGetD q "desc".toList [] ∧
      (mkQueryInfo fn qmd q).query_map_desc = qmd ∧
      (mkQueryInfo fn qmd q).query = wrapQuery (pyStrip (bodyOf q)) ∧
      ∃ t₁ t₂ : Str, t₁.all isPySpace = true ∧ t₂.all isPySpace = true ∧
        bodyOf q = t₁ ++ pyStrip (bodyOf q) ++ t₂ := by
  intro fn qmd q
  exact ⟨rfl, rfl, rfl, pyStrip_decomp (bodyOf q)⟩
